import Mathlib

/-!
Verification of the plutus21 automation pipeline (`src/main.py`,
`src/setup_database.py`).

Python strings are modelled as `List Char`; each Python function of the
pipeline is embedded as a Lean definition translated from the source, and
external systems (Google Sheets, the Gemini completion call, SQLite, the
Slack webhook) are modelled as oracles supplied through a `World` record,
with the calls the program makes recorded as an effect trace.
-/

/-- Python strings, modelled as lists of characters. -/
abbrev PyStr := List Char

/-- Whitespace characters removed by Python `str.strip()`. -/
def pySpace (c : Char) : Bool :=
  c = ' ' || c = '\t' || c = '\n' || c = '\r' || c = '\x0b' || c = '\x0c'

/-- Leading-whitespace removal, the first half of Python `str.strip()`. -/
def stripLead (l : PyStr) : PyStr := l.dropWhile pySpace

/-- Trailing-whitespace removal, the second half of Python `str.strip()`. -/
def stripTrail (l : PyStr) : PyStr := (l.reverse.dropWhile pySpace).reverse

/-- Python `str.strip()` with no arguments. -/
def pyStrip (l : PyStr) : PyStr := stripTrail (stripLead l)

/-- Fuel-indexed core of Python `str.replace(pat, '')`: scans left to right,
removing non-overlapping occurrences of `pat`.  One unit of fuel is spent per
examined position, so `l.length` fuel always suffices. -/
def pyReplaceAux (pat : List Char) : Nat → List Char → List Char
  | 0, l => l
  | _ + 1, [] => []
  | fuel + 1, c :: rest =>
    if pat.isPrefixOf (c :: rest) then
      pyReplaceAux pat fuel ((c :: rest).drop pat.length)
    else
      c :: pyReplaceAux pat fuel rest

/-- Python `s.replace(pat, '')` (deletion of every occurrence of `pat`,
scanning left to right without overlap).  Only used with non-empty `pat`. -/
def pyReplace (pat l : List Char) : List Char := pyReplaceAux pat l.length l

/-- Decides whether `pat` occurs as a contiguous substring of `l`. -/
def containsSub (pat : List Char) : List Char → Bool
  | [] => pat.isPrefixOf []
  | c :: r => pat.isPrefixOf (c :: r) || containsSub pat r

/-- The markdown fence token stripped second in `analyze_with_ai`. -/
def fenceTok : List Char := ['\x60', '\x60', '\x60']

/-- The markdown fence token stripped first in `analyze_with_ai`. -/
def fenceJsonTok : List Char := ['\x60', '\x60', '\x60', 'j', 's', 'o', 'n']

/-- The response clean-up on line 79 of `src/main.py`:
`response.text.strip().replace('\x60\x60\x60json', '').replace('\x60\x60\x60', '').strip()`. -/
def cleanResponse (t : PyStr) : PyStr :=
  pyStrip (pyReplace fenceTok (pyReplace fenceJsonTok (pyStrip t)))

/-- Wrapping a payload in a markdown ` \x60\x60\x60json ` code fence, the shape the
spec says the model may return. -/
def wrapFence (p : PyStr) : PyStr :=
  fenceJsonTok ++ ('\n' :: p) ++ ('\n' :: fenceTok)

/-- JSON values as produced by `json.loads`.  Numbers are restricted to
integers: every numeral the pipeline's contract involves (the 1-5 alignment
score) is an integer, and no claim involves non-integer numerals. -/
inductive Json where
  | null : Json
  | bool (b : Bool) : Json
  | num (n : Int) : Json
  | str (s : PyStr) : Json
  | arr (elems : List Json) : Json
  | obj (members : List (PyStr × Json)) : Json

/-- JSON insignificant whitespace. -/
def jsonWs (c : Char) : Bool :=
  c = ' ' || c = '\t' || c = '\n' || c = '\r'

/-- Skips insignificant JSON whitespace. -/
def skipWs (l : List Char) : List Char := l.dropWhile jsonWs

/-- Value of a hexadecimal digit, if `c` is one. -/
def hexVal (c : Char) : Option Nat :=
  if '0' ≤ c ∧ c ≤ '9' then some (c.toNat - 48)
  else if 'a' ≤ c ∧ c ≤ 'f' then some (c.toNat - 87)
  else if 'A' ≤ c ∧ c ≤ 'F' then some (c.toNat - 55)
  else none

/-- Scans the body of a JSON string literal (after the opening quote),
returning the decoded characters and the input after the closing quote.
`\uXXXX` escapes are decoded directly, without surrogate pairing. -/
def parseStringBody : List Char → Option (PyStr × List Char)
  | [] => none
  | '"' :: r => some ([], r)
  | '\\' :: '"' :: r => (parseStringBody r).map fun p => ('"' :: p.1, p.2)
  | '\\' :: '\\' :: r => (parseStringBody r).map fun p => ('\\' :: p.1, p.2)
  | '\\' :: '/' :: r => (parseStringBody r).map fun p => ('/' :: p.1, p.2)
  | '\\' :: 'b' :: r => (parseStringBody r).map fun p => ('\x08' :: p.1, p.2)
  | '\\' :: 'f' :: r => (parseStringBody r).map fun p => ('\x0c' :: p.1, p.2)
  | '\\' :: 'n' :: r => (parseStringBody r).map fun p => ('\n' :: p.1, p.2)
  | '\\' :: 'r' :: r => (parseStringBody r).map fun p => ('\r' :: p.1, p.2)
  | '\\' :: 't' :: r => (parseStringBody r).map fun p => ('\t' :: p.1, p.2)
  | '\\' :: 'u' :: h1 :: h2 :: h3 :: h4 :: r =>
    match hexVal h1, hexVal h2, hexVal h3, hexVal h4 with
    | some a, some b, some c, some d =>
      (parseStringBody r).map fun p =>
        (Char.ofNat (a * 4096 + b * 256 + c * 16 + d) :: p.1, p.2)
    | _, _, _, _ => none
  | '\\' :: _ => none
  | c :: r =>
    if c.toNat < 32 then none
    else (parseStringBody r).map fun p => (c :: p.1, p.2)

/-- Digit run to a natural number. -/
def digitsToNat (ds : List Char) : Nat :=
  ds.foldl (fun a c => a * 10 + (c.toNat - 48)) 0

/-- Scans a JSON unsigned integer token (`0`, or a nonzero leading digit
followed by a digit run). -/
def parseNatToken : List Char → Option (Nat × List Char)
  | '0' :: r => some (0, r)
  | l =>
    let ds := l.takeWhile Char.isDigit
    if ds.isEmpty then none else some (digitsToNat ds, l.drop ds.length)

/-- Scans a JSON integer token with optional minus sign. -/
def parseIntToken : List Char → Option (Int × List Char)
  | '-' :: r =>
    match parseNatToken r with
    | some (n, rest) => some (-(n : Int), rest)
    | none => none
  | l =>
    match parseNatToken l with
    | some (n, rest) => some ((n : Int), rest)
    | none => none

/-- A pending container during parsing: an array with the elements parsed so
far (reversed), or an object with the members parsed so far (reversed) and
the key whose value is being parsed. -/
inductive PFrame where
  | fArr (acc : List Json) : PFrame
  | fObj (acc : List (PyStr × Json)) (key : PyStr) : PFrame

/-- One-pass JSON parser as a fuel-indexed stack machine: with `value = none`
it parses the next value from the input; with `value = some v` it unwinds the
container stack.  Every recursive call consumes at least one input character,
so `l.length + 1` fuel suffices for input `l`. -/
def pstep : Nat → List PFrame → Option Json → List Char → Option (Json × List Char)
  | 0, _, _, _ => none
  | fuel + 1, stack, none, input =>
    match skipWs input with
    | [] => none
    | 'n' :: r =>
      if ("ull".toList).isPrefixOf r then pstep fuel stack (some Json.null) (r.drop 3)
      else none
    | 't' :: r =>
      if ("rue".toList).isPrefixOf r then pstep fuel stack (some (Json.bool true)) (r.drop 3)
      else none
    | 'f' :: r =>
      if ("alse".toList).isPrefixOf r then pstep fuel stack (some (Json.bool false)) (r.drop 4)
      else none
    | '"' :: r =>
      match parseStringBody r with
      | some (s, rest) => pstep fuel stack (some (Json.str s)) rest
      | none => none
    | '[' :: r =>
      match skipWs r with
      | ']' :: r2 => pstep fuel stack (some (Json.arr [])) r2
      | _ => pstep fuel (PFrame.fArr [] :: stack) none r
    | '{' :: r =>
      match skipWs r with
      | '}' :: r2 => pstep fuel stack (some (Json.obj [])) r2
      | '"' :: r2 =>
        match parseStringBody r2 with
        | some (k, r3) =>
          match skipWs r3 with
          | ':' :: r4 => pstep fuel (PFrame.fObj [] k :: stack) none r4
          | _ => none
        | none => none
      | _ => none
    | c :: r =>
      if c = '-' || c.isDigit then
        match parseIntToken (c :: r) with
        | some (n, rest) => pstep fuel stack (some (Json.num n)) rest
        | none => none
      else none
  | fuel + 1, stack, some v, input =>
    match stack with
    | [] => some (v, input)
    | PFrame.fArr acc :: st =>
      match skipWs input with
      | ',' :: r => pstep fuel (PFrame.fArr (v :: acc) :: st) none r
      | ']' :: r => pstep fuel st (some (Json.arr (v :: acc).reverse)) r
      | _ => none
    | PFrame.fObj acc k :: st =>
      match skipWs input with
      | ',' :: r =>
        match skipWs r with
        | '"' :: r2 =>
          match parseStringBody r2 with
          | some (k2, r3) =>
            match skipWs r3 with
            | ':' :: r4 => pstep fuel (PFrame.fObj ((k, v) :: acc) k2 :: st) none r4
            | _ => none
          | none => none
        | _ => none
      | '}' :: r => pstep fuel st (some (Json.obj ((k, v) :: acc).reverse)) r
      | _ => none

/-- Model of `json.loads`: parses one JSON value and requires only
whitespace to follow, returning `none` where `json.loads` raises. -/
def jsonParse (l : List Char) : Option Json :=
  match pstep (l.length + 1) [] none l with
  | some (v, rest) => if (skipWs rest).isEmpty then some v else none
  | none => none

/-- Python truthiness of a decoded JSON value (`if not x`). -/
def pyFalsy : Json → Bool
  | Json.null => true
  | Json.bool b => !b
  | Json.num n => n = 0
  | Json.str s => s.isEmpty
  | Json.arr xs => xs.isEmpty
  | Json.obj kvs => kvs.isEmpty

/-- Projection used to discriminate parses of string payloads. -/
def jsonText : Option Json → PyStr
  | some (Json.str s) => s
  | _ => []

/-- Python `dict` lookup without default (`d.get(k)`): the binding written
last wins, matching construction of a `dict` from a key-value sequence. -/
def dictGet? (d : List (PyStr × PyStr)) (k : PyStr) : Option PyStr :=
  d.reverse.lookup k

/-- Python `d.get(k, dflt)`. -/
def dictGet (d : List (PyStr × PyStr)) (k : PyStr) (dflt : PyStr) : PyStr :=
  (dictGet? d k).getD dflt

/-- Python `dict` lookup without default on a decoded JSON object. -/
def dictGetJ? (d : List (PyStr × Json)) (k : PyStr) : Option Json :=
  d.reverse.lookup k

/-- Python `d.get(k, dflt)` on a decoded JSON object. -/
def dictGetJ (d : List (PyStr × Json)) (k : PyStr) (dflt : Json) : Json :=
  (dictGetJ? d k).getD dflt

/-- Python `dict(zip(header, row))`: pairs header names with cells,
truncating at the shorter list. -/
def dictZip (header row : List PyStr) : List (PyStr × PyStr) := header.zip row

/-- The `'Status'` column name. -/
def statusKey : PyStr := "Status".toList

/-- The `'Opportunity Description'` column name. -/
def descKey : PyStr := "Opportunity Description".toList

/-- The `'Timestamp'` column name. -/
def tsKey : PyStr := "Timestamp".toList

/-- The `'Company Name'` column name. -/
def companyKey : PyStr := "Company Name".toList

/-- The `'Contact Email'` column name. -/
def emailKey : PyStr := "Contact Email".toList

/-- The `'Company Website'` column name. -/
def websiteKey : PyStr := "Company Website".toList

/-- The `'summary'` key of the AI JSON contract. -/
def summaryKey : PyStr := "summary".toList

/-- The `'alignment_score'` key of the AI JSON contract. -/
def scoreKey : PyStr := "alignment_score".toList

/-- The `'suggested_next_step'` key of the AI JSON contract. -/
def nextStepKey : PyStr := "suggested_next_step".toList

/-- The literal `'Processed'` written to the status column. -/
def processedLit : PyStr := "Processed".toList

/-- One selected spreadsheet row: the header-to-cell dict built by
`fetch_new_inquiries` plus the `row_index` value it stores into it. -/
structure Inquiry where
  fields : List (PyStr × PyStr)
  rowIndex : Nat
deriving DecidableEq

/-- The `for i, row in enumerate(all_rows)` loop of `fetch_new_inquiries`:
keeps rows whose `Status` is missing or whitespace-blank, recording
`row_index = i + 2`. -/
def selectNew (header : List PyStr) : Nat → List (List PyStr) → List Inquiry
  | _, [] => []
  | i, row :: rest =>
    if pyStrip (dictGet (dictZip header row) statusKey []) = [] then
      ⟨dictZip header row, i + 2⟩ :: selectNew header (i + 1) rest
    else
      selectNew header (i + 1) rest

/-- `fetch_new_inquiries` (src/main.py lines 36-59), taking the fetched
`A:H` range contents as input. -/
def fetch_new_inquiries (values : List (List PyStr)) : List Inquiry :=
  if values.length < 2 then []
  else
    match values with
    | [] => []
    | header :: allRows => selectNew header 0 allRows

/-- Python exceptions relevant to the pipeline. -/
inductive PyErr where
  | typeError : PyErr
  | jsonDecodeError : PyErr
  | attributeError : PyErr
  | apiError (code : Nat) : PyErr
deriving DecidableEq

/-- The body of the `try` block of `analyze_with_ai` (src/main.py lines
76-82), with the completion call's outcome (`model.generate_content` plus
`.text`) supplied as input: clean the text, `json.loads` it (raising
`JSONDecodeError` on failure), then read `ai_result.get('alignment_score')`
for the success log line - an `AttributeError` when the decoded value is not
a dict. -/
def analyzeBody (resp : Except PyErr PyStr) : Except PyErr (List (PyStr × Json)) :=
  match resp with
  | Except.error e => Except.error e
  | Except.ok text =>
    match jsonParse (cleanResponse text) with
    | none => Except.error PyErr.jsonDecodeError
    | some (Json.obj kvs) => Except.ok kvs
    | some _ => Except.error PyErr.attributeError

/-- `analyze_with_ai` (src/main.py lines 61-85): the `except Exception`
handler turns any failure of the body into `None`. -/
def analyze_with_ai (resp : Except PyErr PyStr) : Option (List (PyStr × Json)) :=
  match analyzeBody resp with
  | Except.ok kvs => some kvs
  | Except.error _ => none

/-- The tuple bound by the parameterized INSERT of `store_in_database`
(src/main.py lines 91-103). -/
structure InsertRow where
  timestamp : Option PyStr
  companyName : Option PyStr
  contactEmail : Option PyStr
  companyWebsite : Option PyStr
  description : Option PyStr
  status : PyStr
  aiSummary : Option Json
  alignmentScore : Option Json

/-- Builds the INSERT tuple from the inquiry dict and the decoded AI result,
exactly as the `cursor.execute` call does. -/
def buildInsertRow (q : Inquiry) (kvs : List (PyStr × Json)) : InsertRow where
  timestamp := dictGet? q.fields tsKey
  companyName := dictGet? q.fields companyKey
  contactEmail := dictGet? q.fields emailKey
  companyWebsite := dictGet? q.fields websiteKey
  description := dictGet? q.fields descKey
  status := processedLit
  aiSummary := dictGetJ? kvs summaryKey
  alignmentScore := dictGetJ? kvs scoreKey

/-- The data interpolated into the Slack message payload built by
`send_slack_alert` (src/main.py lines 114-146). -/
structure SlackMsg where
  companyName : Option PyStr
  alignmentScore : Option Json
  contactEmail : Option PyStr
  summary : Option Json
  suggestedNextStep : Option Json

/-- Builds the Slack message data from the inquiry and the AI result. -/
def buildSlackMsg (q : Inquiry) (kvs : List (PyStr × Json)) : SlackMsg where
  companyName := dictGet? q.fields companyKey
  alignmentScore := dictGetJ? kvs scoreKey
  contactEmail := dictGet? q.fields emailKey
  summary := dictGetJ? kvs summaryKey
  suggestedNextStep := dictGetJ? kvs nextStepKey

/-- A spreadsheet cell value as written by the pipeline: a JSON-decodable
value or Python `None`. -/
abbrev Cell := Option Json

/-- The `values` row built by `update_sheet` (src/main.py lines 156-158):
`[['Processed', ai_result.get('summary'), ai_result.get('alignment_score')]]`. -/
def sheetValues (kvs : List (PyStr × Json)) : List Cell :=
  [some (Json.str processedLit), dictGetJ? kvs summaryKey, dictGetJ? kvs scoreKey]

/-- Python `<` between a decoded JSON value and an integer, as in the guard
`ai_result.get('alignment_score', 0) < 4`: defined for numbers and booleans,
a `TypeError` for every other operand type. -/
def pyLtNum (a : Json) (n : Int) : Except PyErr Bool :=
  match a with
  | Json.num m => Except.ok (decide (m < n))
  | Json.bool b => Except.ok (decide ((if b then (1 : Int) else 0) < n))
  | _ => Except.error PyErr.typeError

/-- An external call made by the pipeline, in program order. -/
inductive Effect where
  | aiCall (description : PyStr) : Effect
  | dbInsert (row : InsertRow) : Effect
  | slackPost (msg : SlackMsg) : Effect
  | sheetUpdate (rowIndex : Nat) (vals : List Cell) : Effect

/-- Oracles for the external systems: the completion call's outcome per
description, and whether each SQLite insert, webhook post (returning an HTTP
status on success) and spreadsheet update raises. -/
structure World where
  aiResp : PyStr → Except PyErr PyStr
  dbResult : InsertRow → Option PyErr
  postResult : SlackMsg → Except PyErr Nat
  sheetResult : Nat → List Cell → Option PyErr

/-- Sequencing of two effectful steps: the second runs only when the first
did not raise; an uncaught exception propagates with the effects so far. -/
def andThen (a : List Effect × Option PyErr) (b : Unit → List Effect × Option PyErr) :
    List Effect × Option PyErr :=
  match a.2 with
  | some e => (a.1, some e)
  | none => (a.1 ++ (b ()).1, (b ()).2)

/-- `store_in_database` (src/main.py lines 87-106): executes the INSERT;
any database exception is uncaught. -/
def store_in_database (w : World) (q : Inquiry) (kvs : List (PyStr × Json)) :
    List Effect × Option PyErr :=
  ([Effect.dbInsert (buildInsertRow q kvs)], w.dbResult (buildInsertRow q kvs))

/-- `send_slack_alert` (src/main.py lines 108-151): returns without any
network call when `ai_result.get('alignment_score', 0) < 4`; otherwise posts
once, and a non-200 status is only logged. -/
def send_slack_alert (w : World) (q : Inquiry) (kvs : List (PyStr × Json)) :
    List Effect × Option PyErr :=
  match pyLtNum (dictGetJ kvs scoreKey (Json.num 0)) 4 with
  | Except.error e => ([], some e)
  | Except.ok true => ([], none)
  | Except.ok false =>
    match w.postResult (buildSlackMsg q kvs) with
    | Except.error e => ([Effect.slackPost (buildSlackMsg q kvs)], some e)
    | Except.ok _ => ([Effect.slackPost (buildSlackMsg q kvs)], none)

/-- `update_sheet` (src/main.py lines 154-169): one `values().update` call
anchored at column F of the given row; any exception is uncaught. -/
def update_sheet (w : World) (rowIndex : Nat) (kvs : List (PyStr × Json)) :
    List Effect × Option PyErr :=
  ([Effect.sheetUpdate rowIndex (sheetValues kvs)], w.sheetResult rowIndex (sheetValues kvs))

/-- The per-inquiry body of the `__main__` loop (src/main.py lines 181-202):
skip on missing or empty description, classify (skip on `None` or falsy
result), then store, conditionally notify, and write back. -/
def processInquiry (w : World) (q : Inquiry) : List Effect × Option PyErr :=
  match dictGet? q.fields descKey with
  | none => ([], none)
  | some ds =>
    if ds = [] then ([], none)
    else
      match analyze_with_ai (w.aiResp ds) with
      | none => ([Effect.aiCall ds], none)
      | some kvs =>
        if kvs.isEmpty then ([Effect.aiCall ds], none)
        else
          let r :=
            andThen (store_in_database w q kvs) fun _ =>
              andThen (send_slack_alert w q kvs) fun _ =>
                update_sheet w q.rowIndex kvs
          (Effect.aiCall ds :: r.1, r.2)

/-- The `for inquiry in new_inquiries` loop: an uncaught exception in one
iteration aborts the whole run. -/
def runInquiries (w : World) : List Inquiry → List Effect × Option PyErr
  | [] => ([], none)
  | q :: rest =>
    match processInquiry w q with
    | (effs, some e) => (effs, some e)
    | (effs, none) =>
      match runInquiries w rest with
      | (more, r) => (effs ++ more, r)

/-- The whole `__main__` run over the fetched tab contents. -/
def runPipeline (w : World) (values : List (List PyStr)) : List Effect × Option PyErr :=
  runInquiries w (fetch_new_inquiries values)

/-- CPython's process exit status: 0 on normal completion, 1 on an uncaught
exception. -/
def exitCode (r : List Effect × Option PyErr) : Nat :=
  match r.2 with
  | none => 0
  | some _ => 1

/-- Selects the webhook posts of a trace. -/
def isSlackPost : Effect → Bool
  | Effect.slackPost _ => true
  | _ => false

/-- Number of webhook posts in a trace. -/
def countPosts (es : List Effect) : Nat := (es.filter isSlackPost).length

/-- A spreadsheet tab as a cell matrix (1-based row, 1-based column). -/
abbrev Sheet := Nat → Nat → Cell

/-- Column F as a 1-based column number. -/
def colF : Nat := 6

/-- Modelled from the spec: the Google Sheets `values().update` call is not
part of src/ - this is the spec's "overwrite with typed input" semantics for
a single-row range anchored at `F{row_index}` (we model value placement, not
cell-type coercion): the supplied values overwrite the adjacent cells
starting at column F of that row, and every other cell is untouched. -/
def applySheetUpdate (s : Sheet) (rowIndex : Nat) (vals : List Cell) : Sheet :=
  fun r c =>
    if r = rowIndex ∧ colF ≤ c ∧ c < colF + vals.length then
      match vals.get? (c - colF) with
      | some v => v
      | none => s r c
    else s r c

/-- The column list of `CREATE TABLE opportunities`
(src/setup_database.py lines 9-21). -/
def opportunitiesColumns : List PyStr :=
  ["id".toList, "timestamp".toList, "company_name".toList, "contact_email".toList,
   "company_website".toList, "description".toList, "status".toList,
   "ai_summary".toList, "alignment_score".toList]

/-- The column list of the INSERT in `store_in_database`
(src/main.py line 92). -/
def insertColumns : List PyStr :=
  ["timestamp".toList, "company_name".toList, "contact_email".toList,
   "company_website".toList, "description".toList, "status".toList,
   "ai_summary".toList, "alignment_score".toList]

/-- C6: for every row position and classification result, the write-back
built by `update_sheet` overwrites exactly the three adjacent cells starting
at column F of that row with the literal `Processed`, the AI summary and the
AI score, and changes no other cell of the sheet. -/
theorem update_sheet_frame (s : Sheet) (rowIndex : Nat) (kvs : List (PyStr × Json)) :
    (sheetValues kvs).length = 3
  ∧ (∀ r c, ¬(r = rowIndex ∧ colF ≤ c ∧ c < colF + 3) →
      applySheetUpdate s rowIndex (sheetValues kvs) r c = s r c)
  ∧ applySheetUpdate s rowIndex (sheetValues kvs) rowIndex colF = some (Json.str processedLit)
  ∧ applySheetUpdate s rowIndex (sheetValues kvs) rowIndex (colF + 1) = dictGetJ? kvs summaryKey
  ∧ applySheetUpdate s rowIndex (sheetValues kvs) rowIndex (colF + 2) = dictGetJ? kvs scoreKey := by
  have hl : (sheetValues kvs).length = 3 := rfl
  refine ⟨rfl, fun r c h => ?_, ?_, ?_, ?_⟩
  · rw [applySheetUpdate, hl, if_neg h]
  · rw [applySheetUpdate, hl, if_pos ⟨rfl, Nat.le_refl _, by norm_num [colF]⟩]
    simp [colF, sheetValues]
  · rw [applySheetUpdate, hl, if_pos ⟨rfl, by omega, by norm_num [colF]⟩]
    simp [colF, sheetValues]
  · rw [applySheetUpdate, hl, if_pos ⟨rfl, by omega, by norm_num [colF]⟩]
    simp [colF, sheetValues]

/-- Witness for C6 at a concrete sheet, row, result and out-of-frame cell. -/
theorem update_sheet_frame_witness :
    applySheetUpdate (fun _ _ => none) 5 (sheetValues [(scoreKey, Json.num 4)]) 1 1 =
      (fun _ _ => (none : Cell)) 1 1
  ∧ applySheetUpdate (fun _ _ => none) 5 (sheetValues [(scoreKey, Json.num 4)]) 5 colF =
      some (Json.str processedLit) :=
  ⟨(update_sheet_frame (fun _ _ => none) 5 [(scoreKey, Json.num 4)]).2.1 1 1 (by norm_num [colF]),
   (update_sheet_frame (fun _ _ => none) 5 [(scoreKey, Json.num 4)]).2.2.1⟩

/-- C3: the notifier posts exactly once when the alignment score is a number
at least 4 and the post returns a status (200 or not, without raising), and
makes no network call when the score is absent or below 4. -/
theorem send_slack_alert_spec (w : World) (q : Inquiry) (kvs : List (PyStr × Json)) :
    (dictGetJ? kvs scoreKey = none → send_slack_alert w q kvs = ([], none))
  ∧ (∀ n : Int, dictGetJ? kvs scoreKey = some (Json.num n) →
      (n < 4 → send_slack_alert w q kvs = ([], none))
    ∧ (4 ≤ n → ∀ code, w.postResult (buildSlackMsg q kvs) = Except.ok code →
        countPosts (send_slack_alert w q kvs).1 = 1
        ∧ (send_slack_alert w q kvs).2 = none)) := by
  constructor
  · intro h
    rw [send_slack_alert, dictGetJ, h]
    simp [pyLtNum]
  · intro n hn
    constructor
    · intro hlt
      rw [send_slack_alert, dictGetJ, hn]
      simp [pyLtNum, hlt]
    · intro hge code hcode
      rw [send_slack_alert, dictGetJ, hn]
      simp only [Option.getD_some, pyLtNum, decide_eq_false (not_lt.mpr hge), hcode]
      exact ⟨rfl, trivial⟩

/-- A world whose webhook always answers with HTTP status 500. -/
def wC3 : World :=
  ⟨fun _ => Except.error PyErr.jsonDecodeError, fun _ => none,
   fun _ => Except.ok 500, fun _ _ => none⟩

/-- A minimal inquiry for the notifier witness. -/
def qC3 : Inquiry := ⟨[], 2⟩

/-- Witness for C3: a concrete high-score result posts once even on a non-200
status, and a concrete low-score result posts nothing. -/
theorem send_slack_alert_spec_witness :
    (countPosts (send_slack_alert wC3 qC3 [(scoreKey, Json.num 5)]).1 = 1
    ∧ (send_slack_alert wC3 qC3 [(scoreKey, Json.num 5)]).2 = none)
  ∧ send_slack_alert wC3 qC3 [(scoreKey, Json.num 2)] = ([], none) :=
  ⟨((send_slack_alert_spec wC3 qC3 [(scoreKey, Json.num 5)]).2 5 rfl).2
      (by norm_num) 500 rfl,
   ((send_slack_alert_spec wC3 qC3 [(scoreKey, Json.num 2)]).2 2 rfl).1 (by norm_num)⟩

/-- An inquiry used by the store counterexample and witness. -/
def qC4 : Inquiry :=
  ⟨[(companyKey, "Acme".toList), (descKey, "logistics saas".toList)], 2⟩

/-- A full classification whose suggested next step is `a`. -/
def kvsNextA : List (PyStr × Json) :=
  [(summaryKey, Json.str ['s']), (scoreKey, Json.num 5), (nextStepKey, Json.str ['a'])]

/-- The same classification except the suggested next step is `b`. -/
def kvsNextB : List (PyStr × Json) :=
  [(summaryKey, Json.str ['s']), (scoreKey, Json.num 5), (nextStepKey, Json.str ['b'])]

/-- Counterexample to C4: two classifications that differ only in
`suggested_next_step` produce the same INSERT tuple, so the store does not
receive that third derived field (the table has no column for it either). -/
theorem store_next_step_counterexample :
    dictGetJ? kvsNextA nextStepKey = some (Json.str ['a'])
  ∧ dictGetJ? kvsNextB nextStepKey = some (Json.str ['b'])
  ∧ Json.str ['a'] ≠ Json.str ['b']
  ∧ buildInsertRow qC4 kvsNextA = buildInsertRow qC4 kvsNextB := by
  refine ⟨rfl, rfl, ?_, rfl⟩
  intro h
  injection h with h2
  exact absurd h2 (by decide)

/-- C4 as amended: the INSERT tuple consists of the five inquiry fields, the
literal `Processed` status, and exactly two derived fields (`summary` and
`alignment_score`); it is insensitive to every other key of the
classification, and the INSERT's column list is the opportunities table's
columns minus the auto-increment `id`. -/
theorem store_receives_two_derived_fields (q : Inquiry) (kvs1 kvs2 : List (PyStr × Json))
    (hsum : dictGetJ? kvs1 summaryKey = dictGetJ? kvs2 summaryKey)
    (hsc : dictGetJ? kvs1 scoreKey = dictGetJ? kvs2 scoreKey) :
    buildInsertRow q kvs1 = buildInsertRow q kvs2
  ∧ (buildInsertRow q kvs1).status = processedLit
  ∧ (buildInsertRow q kvs1).aiSummary = dictGetJ? kvs1 summaryKey
  ∧ (buildInsertRow q kvs1).alignmentScore = dictGetJ? kvs1 scoreKey
  ∧ (buildInsertRow q kvs1).timestamp = dictGet? q.fields tsKey
  ∧ (buildInsertRow q kvs1).companyName = dictGet? q.fields companyKey
  ∧ (buildInsertRow q kvs1).contactEmail = dictGet? q.fields emailKey
  ∧ (buildInsertRow q kvs1).companyWebsite = dictGet? q.fields websiteKey
  ∧ (buildInsertRow q kvs1).description = dictGet? q.fields descKey
  ∧ insertColumns = opportunitiesColumns.drop 1 := by
  refine ⟨?_, rfl, rfl, rfl, rfl, rfl, rfl, rfl, rfl, rfl⟩
  rw [buildInsertRow, buildInsertRow, hsum, hsc]

/-- Witness for the amended C4 at the concrete classifications above. -/
theorem store_receives_two_derived_fields_witness :
    buildInsertRow qC4 kvsNextA = buildInsertRow qC4 kvsNextB
  ∧ (buildInsertRow qC4 kvsNextA).status = processedLit :=
  ⟨(store_receives_two_derived_fields qC4 kvsNextA kvsNextB rfl rfl).1,
   (store_receives_two_derived_fields qC4 kvsNextA kvsNextB rfl rfl).2.1⟩

/-- C7: an inquiry whose `Opportunity Description` is missing or empty is
skipped before any external call - no AI call, no store, no notification,
no write-back - and the loop continues with the remaining inquiries. -/
theorem empty_description_skipped (w : World) (q : Inquiry) (rest : List Inquiry)
    (h : dictGet? q.fields descKey = none ∨ dictGet? q.fields descKey = some []) :
    processInquiry w q = ([], none)
  ∧ runInquiries w (q :: rest) = runInquiries w rest := by
  have hpi : processInquiry w q = ([], none) := by
    rcases h with h | h
    · rw [processInquiry, h]
    · rw [processInquiry, h]
      simp
  refine ⟨hpi, ?_⟩
  rw [runInquiries, hpi]
  cases hrr : runInquiries w rest with
  | mk more r => simp

/-- Witness for C7: a concrete inquiry with an empty description is skipped
and the run continues to the next inquiry. -/
theorem empty_description_skipped_witness :
    processInquiry wC3 ⟨[(descKey, [])], 2⟩ = ([], none)
  ∧ runInquiries wC3 (⟨[(descKey, [])], 2⟩ :: [qC3]) = runInquiries wC3 [qC3] :=
  empty_description_skipped wC3 ⟨[(descKey, [])], 2⟩ [qC3] (Or.inr rfl)

/-- C2: an exception in the completion call and a JSON parse failure both
yield `None` from the classifier instead of raising, and on `None` the
orchestrator skips the inquiry - no store, no notification, no write-back -
and continues with the next one. -/
theorem classifier_failure_skipped (w : World) (q : Inquiry) (rest : List Inquiry)
    (ds : PyStr) (hd : dictGet? q.fields descKey = some ds) (hne : ds ≠ [])
    (hai : analyze_with_ai (w.aiResp ds) = none) :
    (∀ e, analyze_with_ai (Except.error e) = none)
  ∧ (∀ text, jsonParse (cleanResponse text) = none →
      analyze_with_ai (Except.ok text) = none)
  ∧ processInquiry w q = ([Effect.aiCall ds], none)
  ∧ runInquiries w (q :: rest) =
      (Effect.aiCall ds :: (runInquiries w rest).1, (runInquiries w rest).2) := by
  have hpi : processInquiry w q = ([Effect.aiCall ds], none) := by
    simp only [processInquiry, hd]
    rw [if_neg hne, hai]
  refine ⟨fun e => rfl, fun text ht => ?_, hpi, ?_⟩
  · simp only [analyze_with_ai, analyzeBody, ht]
  · rw [runInquiries, hpi]
    cases hrr : runInquiries w rest with
    | mk more r => simp

/-- A world whose completion call always raises. -/
def wAiDown : World :=
  ⟨fun _ => Except.error (PyErr.apiError 429), fun _ => none,
   fun _ => Except.ok 200, fun _ _ => none⟩

/-- An inquiry with a non-empty description. -/
def qDesc : Inquiry := ⟨[(descKey, "desc".toList)], 2⟩

/-- Witness for C2: with a failing completion call the concrete inquiry is
skipped with only the AI call in the trace, and the next inquiry still runs. -/
theorem classifier_failure_skipped_witness :
    processInquiry wAiDown qDesc = ([Effect.aiCall ("desc".toList)], none)
  ∧ runInquiries wAiDown (qDesc :: [qC3]) =
      (Effect.aiCall ("desc".toList) :: (runInquiries wAiDown [qC3]).1,
        (runInquiries wAiDown [qC3]).2) :=
  ⟨(classifier_failure_skipped wAiDown qDesc [qC3] ("desc".toList) rfl (by decide) rfl).2.2.1,
   (classifier_failure_skipped wAiDown qDesc [qC3] ("desc".toList) rfl (by decide) rfl).2.2.2⟩

/-- C10: a response text that decodes to a falsy JSON value - in particular
the empty object - is treated like a classification failure, because the
orchestrator tests `if not ai_analysis`: the inquiry is skipped with no
store, no notification and no write-back, and the loop continues. -/
theorem falsy_classification_skipped (w : World) (q : Inquiry) (rest : List Inquiry)
    (ds text : PyStr) (v : Json)
    (hd : dictGet? q.fields descKey = some ds) (hne : ds ≠ [])
    (hresp : w.aiResp ds = Except.ok text)
    (hparse : jsonParse (cleanResponse text) = some v)
    (hfalsy : pyFalsy v = true) :
    processInquiry w q = ([Effect.aiCall ds], none)
  ∧ runInquiries w (q :: rest) =
      (Effect.aiCall ds :: (runInquiries w rest).1, (runInquiries w rest).2) := by
  have hpi : processInquiry w q = ([Effect.aiCall ds], none) := by
    simp only [processInquiry, hd]
    rw [if_neg hne]
    cases v with
    | obj kvs =>
      have hk : kvs.isEmpty = true := hfalsy
      simp only [analyze_with_ai, analyzeBody, hresp, hparse, hk, if_true]
    | null => simp only [analyze_with_ai, analyzeBody, hresp, hparse]
    | bool b => simp only [analyze_with_ai, analyzeBody, hresp, hparse]
    | num n => simp only [analyze_with_ai, analyzeBody, hresp, hparse]
    | str s => simp only [analyze_with_ai, analyzeBody, hresp, hparse]
    | arr xs => simp only [analyze_with_ai, analyzeBody, hresp, hparse]
  refine ⟨hpi, ?_⟩
  rw [runInquiries, hpi]
  cases hrr : runInquiries w rest with
  | mk more r => simp

/-- A world whose completion call always answers with the empty JSON object. -/
def wEmptyObj : World :=
  ⟨fun _ => Except.ok ("\x7b\x7d".toList), fun _ => none,
   fun _ => Except.ok 200, fun _ _ => none⟩

/-- Witness for C10: the literal response text of two brace characters
parses to the empty object and the concrete inquiry is skipped. -/
theorem falsy_classification_skipped_witness :
    processInquiry wEmptyObj qDesc = ([Effect.aiCall ("desc".toList)], none)
  ∧ runInquiries wEmptyObj (qDesc :: []) =
      (Effect.aiCall ("desc".toList) :: (runInquiries wEmptyObj []).1,
        (runInquiries wEmptyObj []).2) :=
  falsy_classification_skipped wEmptyObj qDesc [] ("desc".toList) ("\x7b\x7d".toList)
    (Json.obj []) rfl (by decide) rfl rfl rfl

/-- C9 as amended: a successfully parsed classification whose
`alignment_score` is a string is accepted unchecked by the classifier and
received as-is by the store, but the notifier guard's comparison with 4 then
raises a `TypeError`, aborting the run before notification and write-back. -/
theorem string_score_aborts (w : World) (q : Inquiry) (rest : List Inquiry)
    (ds : PyStr) (kvs : List (PyStr × Json)) (s : PyStr)
    (hd : dictGet? q.fields descKey = some ds) (hne : ds ≠ [])
    (hai : analyze_with_ai (w.aiResp ds) = some kvs) (hk : kvs.isEmpty = false)
    (hscore : dictGetJ? kvs scoreKey = some (Json.str s))
    (hdb : w.dbResult (buildInsertRow q kvs) = none) :
    processInquiry w q =
      ([Effect.aiCall ds, Effect.dbInsert (buildInsertRow q kvs)], some PyErr.typeError)
  ∧ (buildInsertRow q kvs).alignmentScore = some (Json.str s)
  ∧ runInquiries w (q :: rest) =
      ([Effect.aiCall ds, Effect.dbInsert (buildInsertRow q kvs)], some PyErr.typeError) := by
  have hslack : send_slack_alert w q kvs = ([], some PyErr.typeError) := by
    rw [send_slack_alert, dictGetJ, hscore]
    simp [pyLtNum]
  have hpi : processInquiry w q =
      ([Effect.aiCall ds, Effect.dbInsert (buildInsertRow q kvs)], some PyErr.typeError) := by
    simp only [processInquiry, hd]
    rw [if_neg hne, hai]
    simp only [hk, Bool.false_eq_true, if_false, andThen, store_in_database, hdb, hslack]
    simp
  refine ⟨hpi, hscore, ?_⟩
  rw [runInquiries, hpi]

/-- A world whose completion call answers with a syntactically valid JSON
object whose `alignment_score` is the string `5`. -/
def wStrScore : World :=
  ⟨fun _ => Except.ok
      ("\x7b\"summary\": \"s\", \"alignment_score\": \"5\", \"suggested_next_step\": \"n\"\x7d".toList),
   fun _ => none, fun _ => Except.ok 200, fun _ _ => none⟩

/-- The decoded classification with the string score. -/
def kvsStrScore : List (PyStr × Json) :=
  [(summaryKey, Json.str ['s']), (scoreKey, Json.str ['5']), (nextStepKey, Json.str ['n'])]

/-- Witness for the amended C9 at the concrete inquiry and world. -/
theorem string_score_aborts_witness :
    processInquiry wStrScore qDesc =
      ([Effect.aiCall ("desc".toList), Effect.dbInsert (buildInsertRow qDesc kvsStrScore)],
        some PyErr.typeError)
  ∧ (buildInsertRow qDesc kvsStrScore).alignmentScore = some (Json.str ['5'])
  ∧ runInquiries wStrScore (qDesc :: []) =
      ([Effect.aiCall ("desc".toList), Effect.dbInsert (buildInsertRow qDesc kvsStrScore)],
        some PyErr.typeError) :=
  string_score_aborts wStrScore qDesc [] ("desc".toList) kvsStrScore ['5']
    rfl (by decide) rfl rfl rfl rfl

/-- Counterexample to C9: at a concrete inquiry the store's INSERT receives
the string score unchecked, but the run then aborts with a `TypeError` from
the notifier guard and exit status 1 - the malformed score is not propagated
"without error" through the notifier guard and the write-back. -/
theorem string_score_counterexample :
    (buildInsertRow qDesc kvsStrScore).alignmentScore = some (Json.str ['5'])
  ∧ (runInquiries wStrScore (qDesc :: [])).2 = some PyErr.typeError
  ∧ exitCode (runInquiries wStrScore (qDesc :: [])) = 1 :=
  ⟨rfl, rfl, rfl⟩

/-- In a world where no store, webhook or write-back call raises and every
successful classification's score is comparable with 4, one loop iteration
never raises: AI failures, missing descriptions and falsy results are all
absorbed by `continue`. -/
theorem processInquiry_ok (w : World)
    (hdb : ∀ r, w.dbResult r = none)
    (hpost : ∀ m, ∃ c, w.postResult m = Except.ok c)
    (hsheet : ∀ i v, w.sheetResult i v = none)
    (hscore : ∀ ds kvs, analyze_with_ai (w.aiResp ds) = some kvs →
        ∃ b, pyLtNum (dictGetJ kvs scoreKey (Json.num 0)) 4 = Except.ok b)
    (q : Inquiry) : (processInquiry w q).2 = none := by
  cases hd : dictGet? q.fields descKey with
  | none => simp [processInquiry, hd]
  | some ds =>
    by_cases hds : ds = []
    · simp [processInquiry, hd, hds]
    · cases hai : analyze_with_ai (w.aiResp ds) with
      | none => simp [processInquiry, hd, hds, hai]
      | some kvs =>
        by_cases hk : kvs.isEmpty
        · simp [processInquiry, hd, hds, hai, hk]
        · have hsl : (send_slack_alert w q kvs).2 = none := by
            rcases hscore ds kvs hai with ⟨b, hb⟩
            simp only [send_slack_alert]
            rw [hb]
            cases b with
            | true => rfl
            | false =>
              rcases hpost (buildSlackMsg q kvs) with ⟨c, hc⟩
              simp [hc]
          simp only [processInquiry, hd, if_neg hds, hai]
          simp [hk, andThen, store_in_database, update_sheet, hdb, hsheet, hsl]

/-- Same-world extension of `processInquiry_ok` to the whole loop. -/
theorem runInquiries_ok (w : World)
    (hdb : ∀ r, w.dbResult r = none)
    (hpost : ∀ m, ∃ c, w.postResult m = Except.ok c)
    (hsheet : ∀ i v, w.sheetResult i v = none)
    (hscore : ∀ ds kvs, analyze_with_ai (w.aiResp ds) = some kvs →
        ∃ b, pyLtNum (dictGetJ kvs scoreKey (Json.num 0)) 4 = Except.ok b) :
    ∀ qs : List Inquiry, (runInquiries w qs).2 = none := by
  intro qs
  induction qs with
  | nil => rfl
  | cons q rest ih =>
    rw [runInquiries]
    cases hp : processInquiry w q with
    | mk effs err =>
      have herr : err = none := by
        have h2 := processInquiry_ok w hdb hpost hsheet hscore q
        rw [hp] at h2
        exact h2
      subst herr
      cases hr : runInquiries w rest with
      | mk more r2 =>
        have : r2 = none := by
          rw [hr] at ih
          exact ih
        simpa using this

/-- C8 as amended: the run completes and exits 0 whatever tab contents were
fetched and despite AI-call failures, parse failures, missing descriptions
and non-200 notifier responses - provided no store, webhook-transport or
write-back call raises and each successful classification's score is
comparable with 4 (an uncaught exception in those steps aborts the run with
exit status 1). -/
theorem pipeline_completes (w : World) (values : List (List PyStr))
    (hdb : ∀ r, w.dbResult r = none)
    (hpost : ∀ m, ∃ c, w.postResult m = Except.ok c)
    (hsheet : ∀ i v, w.sheetResult i v = none)
    (hscore : ∀ ds kvs, analyze_with_ai (w.aiResp ds) = some kvs →
        ∃ b, pyLtNum (dictGetJ kvs scoreKey (Json.num 0)) 4 = Except.ok b) :
    (runPipeline w values).2 = none ∧ exitCode (runPipeline w values) = 0 := by
  have h := runInquiries_ok w hdb hpost hsheet hscore (fetch_new_inquiries values)
  exact ⟨h, by simp [exitCode, runPipeline, h]⟩

/-- The intake header row of the sheet. -/
def headerC : List PyStr := [tsKey, companyKey, emailKey, websiteKey, descKey, statusKey]

/-- One unprocessed data row with a description and a blank status. -/
def rowC : List PyStr :=
  ["t".toList, "Acme".toList, "a@x".toList, "w".toList, "good desc".toList, []]

/-- Tab contents with the header and the one unprocessed row. -/
def valuesC : List (List PyStr) := [headerC, rowC]

/-- A completion response carrying a well-formed classification. -/
def respTextGood : PyStr := "\x7b\"alignment_score\":5\x7d".toList

/-- A world where the classification succeeds but the database INSERT
raises. -/
def wBadDb : World :=
  ⟨fun _ => Except.ok respTextGood, fun _ => some (PyErr.apiError 1),
   fun _ => Except.ok 200, fun _ _ => none⟩

/-- Counterexample to C8: with one valid inquiry and a raising INSERT, the
process aborts with an uncaught exception and exit status 1, not 0 - an
error on an individual inquiry does abort the run when it occurs in the
store, notifier transport or write-back. -/
theorem pipeline_abort_counterexample :
    (runPipeline wBadDb valuesC).2 = some (PyErr.apiError 1)
  ∧ exitCode (runPipeline wBadDb valuesC) = 1 := ⟨rfl, rfl⟩

/-- A world whose services never raise and whose classification succeeds. -/
def wGood : World :=
  ⟨fun _ => Except.ok respTextGood, fun _ => none,
   fun _ => Except.ok 200, fun _ _ => none⟩

/-- Witness for the amended C8 at a concrete benign world and tab. -/
theorem pipeline_completes_witness :
    (runPipeline wGood valuesC).2 = none ∧ exitCode (runPipeline wGood valuesC) = 0 :=
  pipeline_completes wGood valuesC (fun _ => rfl) (fun _ => ⟨200, rfl⟩) (fun _ _ => rfl)
    (fun _ kvs h => by
      have h2 : (some [(scoreKey, Json.num 5)] : Option (List (PyStr × Json))) = some kvs := h
      cases h2
      exact ⟨false, rfl⟩)

/-- Every inquiry selected from row counter `i` onwards has row position at
least `i + 2`. -/
theorem selectNew_rowIndex_lb (header : List PyStr) :
    ∀ (rows : List (List PyStr)) (i : Nat) (q : Inquiry),
      q ∈ selectNew header i rows → i + 2 ≤ q.rowIndex := by
  intro rows
  induction rows with
  | nil => intro i q h; simp [selectNew] at h
  | cons row rest ih =>
    intro i q h
    rw [selectNew] at h
    split at h
    · rcases List.mem_cons.mp h with h1 | h1
      · subst h1; simp
      · have := ih (i + 1) q h1; omega
    · have := ih (i + 1) q h; omega

/-- The selected row positions are strictly increasing: selection preserves
the original row order. -/
theorem selectNew_pairwise (header : List PyStr) :
    ∀ (rows : List (List PyStr)) (i : Nat),
      ((selectNew header i rows).map Inquiry.rowIndex).Pairwise (· < ·) := by
  intro rows
  induction rows with
  | nil => intro i; simp [selectNew]
  | cons row rest ih =>
    intro i
    rw [selectNew]
    split
    · rw [List.map_cons]
      refine List.Pairwise.cons ?_ (ih (i + 1))
      intro x hx
      rcases List.mem_map.mp hx with ⟨q, hq, rfl⟩
      have h1 := selectNew_rowIndex_lb header rest (i + 1) q hq
      have h2 : (Inquiry.mk (dictZip header row) (i + 2)).rowIndex = i + 2 := rfl
      omega
    · exact ih (i + 1)

/-- Membership characterization of the selection loop: starting the counter
at `i`, the selected inquiries are exactly the dicts of the data rows whose
`Status` is missing or whitespace-blank, at position `i + j + 2` for the row
at 0-based index `j`. -/
theorem selectNew_mem (header : List PyStr) :
    ∀ (rows : List (List PyStr)) (i : Nat) (q : Inquiry),
      q ∈ selectNew header i rows ↔
        ∃ j, ∃ hj : j < rows.length,
          pyStrip (dictGet (dictZip header (rows.get ⟨j, hj⟩)) statusKey []) = []
          ∧ q = ⟨dictZip header (rows.get ⟨j, hj⟩), i + j + 2⟩ := by
  intro rows
  induction rows with
  | nil => intro i q; simp [selectNew]
  | cons row rest ih =>
    intro i q
    rw [selectNew]
    constructor
    · intro h
      by_cases hb : pyStrip (dictGet (dictZip header row) statusKey []) = []
      · rw [if_pos hb] at h
        rcases List.mem_cons.mp h with h1 | h1
        · exact ⟨0, by simp, hb, by simpa using h1⟩
        · rcases (ih (i + 1) q).mp h1 with ⟨j, hj, hb2, hq⟩
          refine ⟨j + 1, by simp only [List.length_cons]; omega, ?_, ?_⟩
          · rw [List.get_cons_succ]
            exact hb2
          · rw [hq, List.get_cons_succ]
            congr 1
            omega
      · rw [if_neg hb] at h
        rcases (ih (i + 1) q).mp h with ⟨j, hj, hb2, hq⟩
        refine ⟨j + 1, by simp only [List.length_cons]; omega, ?_, ?_⟩
        · rw [List.get_cons_succ]
          exact hb2
        · rw [hq, List.get_cons_succ]
          congr 1
          omega
    · rintro ⟨j, hj, hb, hq⟩
      cases j with
      | zero =>
        have hb0 : pyStrip (dictGet (dictZip header row) statusKey []) = [] := hb
        have hq0 : q = ⟨dictZip header row, i + 0 + 2⟩ := hq
        rw [if_pos hb0]
        exact List.mem_cons.mpr (Or.inl (by simpa using hq0))
      | succ j' =>
        have hmem : q ∈ selectNew header (i + 1) rest := by
          refine (ih (i + 1) q).mpr
            ⟨j', by simp only [List.length_cons] at hj; omega, ?_, ?_⟩
          · rw [List.get_cons_succ] at hb
            exact hb
          · rw [hq, List.get_cons_succ]
            congr 1
            omega
        split
        · exact List.mem_cons.mpr (Or.inr hmem)
        · exact hmem

/-- C1: with fewer than two rows the selector yields the empty list without
error; otherwise it yields, in strictly increasing row order, exactly the
data rows whose `Status` field is missing or blank after trimming, the row
at 0-based index `j` carrying row position `j + 2`. -/
theorem fetch_new_inquiries_spec (values : List (List PyStr)) :
    (values.length < 2 → fetch_new_inquiries values = [])
  ∧ ∀ header rows, values = header :: rows → rows ≠ [] →
      ((fetch_new_inquiries values).map Inquiry.rowIndex).Pairwise (· < ·)
    ∧ ∀ q : Inquiry, q ∈ fetch_new_inquiries values ↔
        ∃ j, ∃ hj : j < rows.length,
          pyStrip (dictGet (dictZip header (rows.get ⟨j, hj⟩)) statusKey []) = []
          ∧ q = ⟨dictZip header (rows.get ⟨j, hj⟩), j + 2⟩ := by
  constructor
  · intro h
    rw [fetch_new_inquiries.eq_def, if_pos h]
  · intro header rows hv hrows
    subst hv
    have hlen : ¬((header :: rows).length < 2) := by
      cases rows with
      | nil => exact absurd rfl hrows
      | cons a b => simp
    have hfetch : fetch_new_inquiries (header :: rows) = selectNew header 0 rows := by
      rw [fetch_new_inquiries.eq_def, if_neg hlen]
    constructor
    · rw [hfetch]; exact selectNew_pairwise header rows 0
    · intro q
      rw [hfetch]
      rw [selectNew_mem header rows 0 q]
      constructor
      · rintro ⟨j, hj, hb, hq⟩
        exact ⟨j, hj, hb, by simpa using hq⟩
      · rintro ⟨j, hj, hb, hq⟩
        exact ⟨j, hj, hb, by simpa using hq⟩

/-- The header of the spec's three-row scenario. -/
def headerW : List PyStr := [tsKey, companyKey, emailKey, websiteKey, descKey, statusKey]

/-- Data row 1: blank status. -/
def rowW1 : List PyStr :=
  ["t1".toList, "A".toList, "a@x".toList, "wa".toList, "da".toList, []]

/-- Data row 2: already processed. -/
def rowW2 : List PyStr :=
  ["t2".toList, "B".toList, "b@x".toList, "wb".toList, "db".toList, processedLit]

/-- Data row 3: whitespace-only status. -/
def rowW3 : List PyStr :=
  ["t3".toList, "C".toList, "c@x".toList, "wc".toList, "dc".toList, [' ', ' ']]

/-- The spec's scenario tab: header plus three data rows. -/
def valuesW : List (List PyStr) := [headerW, rowW1, rowW2, rowW3]

/-- Witness for C1 on the spec's scenario: the selection is in increasing
row order and the first data row is selected with row position 2. -/
theorem fetch_new_inquiries_spec_witness :
    ((fetch_new_inquiries valuesW).map Inquiry.rowIndex).Pairwise (· < ·)
  ∧ (⟨dictZip headerW rowW1, 2⟩ : Inquiry) ∈ fetch_new_inquiries valuesW :=
  ⟨((fetch_new_inquiries_spec valuesW).2 headerW [rowW1, rowW2, rowW3] rfl
      (by decide)).1,
   (((fetch_new_inquiries_spec valuesW).2 headerW [rowW1, rowW2, rowW3] rfl
      (by decide)).2 ⟨dictZip headerW rowW1, 2⟩).mpr
     ⟨0, by decide, by decide, by decide⟩⟩

/-- A list is a Boolean prefix of itself followed by anything. -/
theorem isPrefixOf_append_self (a t : List Char) : a.isPrefixOf (a ++ t) = true := by
  induction a with
  | nil => simp [List.isPrefixOf]
  | cons x a ih => simp [List.isPrefixOf, ih]

/-- If `dropWhile` keeps a non-empty list intact, its head fails the test. -/
theorem head_false_of_dropWhile_self (f : Char → Bool) (x : Char) (a : List Char)
    (h : (x :: a).dropWhile f = x :: a) : f x = false := by
  by_contra hx
  rw [Bool.not_eq_false] at hx
  rw [List.dropWhile_cons_of_pos hx] at h
  have h1 : (a.dropWhile f).length ≤ a.length := (List.dropWhile_suffix f).length_le
  have h2 := congrArg List.length h
  simp at h2
  omega

/-- `dropWhile` ignores anything appended after a list it already keeps. -/
theorem dropWhile_append_eq_self (f : Char → Bool) (a b : List Char)
    (ha : a.dropWhile f = a) (hne : a ≠ []) : (a ++ b).dropWhile f = a ++ b := by
  cases a with
  | nil => exact absurd rfl hne
  | cons x a' =>
    have hx := head_false_of_dropWhile_self f x a' ha
    simp [List.dropWhile_cons, hx]

/-- A string equal to its own strip is kept by each half of the strip. -/
theorem pyStrip_parts (p : PyStr) (hs : pyStrip p = p) :
    stripLead p = p ∧ stripTrail p = p := by
  have h1 : (stripLead p).length ≤ p.length := (List.dropWhile_suffix pySpace).length_le
  have h2 : (stripTrail (stripLead p)).length ≤ (stripLead p).length := by
    rw [stripTrail]
    have h3 := (List.dropWhile_suffix (l := (stripLead p).reverse) pySpace).length_le
    simpa using h3
  have h3 := congrArg List.length hs
  rw [pyStrip] at h3
  have hL : stripLead p = p :=
    (List.dropWhile_suffix pySpace).eq_of_length_le
      (by simp only [stripLead, stripTrail] at h1 h2 h3 ⊢; omega)
  refine ⟨hL, ?_⟩
  rw [pyStrip, hL] at hs
  exact hs

/-- Leading strip ignores a suffix when the head part is kept and nonempty. -/
theorem stripLead_append_eq_self (a b : PyStr) (ha : stripLead a = a) (hne : a ≠ []) :
    stripLead (a ++ b) = a ++ b :=
  dropWhile_append_eq_self pySpace a b ha hne

/-- Trailing strip ignores a prefix when the tail part is kept and nonempty. -/
theorem stripTrail_append_eq_self (a b : PyStr) (hb : stripTrail b = b) (hne : b ≠ []) :
    stripTrail (a ++ b) = a ++ b := by
  have hb2 : b.reverse.dropWhile pySpace = b.reverse := by
    have := congrArg List.reverse hb
    rwa [stripTrail, List.reverse_reverse] at this
  rw [stripTrail, List.reverse_append,
    dropWhile_append_eq_self pySpace b.reverse a.reverse hb2 (by simpa using hne),
    List.reverse_append, List.reverse_reverse, List.reverse_reverse]

/-- The replace scan is fuel-insensitive once the fuel covers the input. -/
theorem pyReplaceAux_fuel (pat : List Char) (hpat : pat ≠ []) :
    ∀ (f1 : Nat) (l : List Char) (f2 : Nat), l.length ≤ f1 → l.length ≤ f2 →
      pyReplaceAux pat f1 l = pyReplaceAux pat f2 l := by
  intro f1
  induction f1 with
  | zero =>
    intro l f2 h1 h2
    have hl : l = [] := List.length_eq_zero.mp (Nat.le_zero.mp h1)
    subst hl
    cases f2 with
    | zero => rfl
    | succ f => rfl
  | succ f ih =>
    intro l f2 h1 h2
    cases l with
    | nil =>
      cases f2 with
      | zero => rfl
      | succ g => rfl
    | cons c rest =>
      cases f2 with
      | zero => simp at h2
      | succ g =>
        have hp1 : 1 ≤ pat.length := by
          cases pat with
          | nil => exact absurd rfl hpat
          | cons a b => simp
        rw [pyReplaceAux, pyReplaceAux]
        by_cases hp : pat.isPrefixOf (c :: rest) = true
        · rw [if_pos hp, if_pos hp]
          apply ih
          · have := List.length_drop pat.length (c :: rest)
            simp at h1 ⊢
            omega
          · have := List.length_drop pat.length (c :: rest)
            simp at h2 ⊢
            omega
        · rw [if_neg hp, if_neg hp]
          have he : pyReplaceAux pat f rest = pyReplaceAux pat g rest := by
            apply ih
            · simp at h1; omega
            · simp at h2; omega
          rw [he]

/-- A string with no occurrence of the pattern is untouched by replace. -/
theorem pyReplaceAux_no_occurrence (pat : List Char) :
    ∀ (fuel : Nat) (l : List Char), containsSub pat l = false →
      pyReplaceAux pat fuel l = l := by
  intro fuel
  induction fuel with
  | zero => intro l h; rfl
  | succ f ih =>
    intro l h
    cases l with
    | nil => rfl
    | cons c rest =>
      rw [containsSub] at h
      rw [Bool.or_eq_false_iff] at h
      rw [pyReplaceAux, if_neg (by rw [h.1]; exact Bool.false_ne_true), ih rest h.2]

/-- `pyReplace` form of `pyReplaceAux_no_occurrence`. -/
theorem pyReplace_no_occurrence (pat l : List Char) (h : containsSub pat l = false) :
    pyReplace pat l = l :=
  pyReplaceAux_no_occurrence pat l.length l h

/-- Replace removes a leading occurrence of the pattern and goes on. -/
theorem pyReplace_pat_prefix (pat : List Char) (hpat : pat ≠ []) (t : List Char) :
    pyReplace pat (pat ++ t) = pyReplace pat t := by
  cases pat with
  | nil => exact absurd rfl hpat
  | cons p ps =>
    have hlen : ((p :: ps) ++ t).length = (ps.length + t.length) + 1 := by
      simp only [List.cons_append, List.length_cons, List.length_append]
    rw [pyReplace, hlen]
    have happ : (p :: ps) ++ t = p :: (ps ++ t) := rfl
    rw [happ, pyReplaceAux,
      if_pos (by rw [← happ]; exact isPrefixOf_append_self (p :: ps) t)]
    have hdrop : (p :: (ps ++ t)).drop (p :: ps).length = t := by
      rw [← happ]
      exact List.drop_left (p :: ps) t
    rw [hdrop]
    exact pyReplaceAux_fuel (p :: ps) hpat (ps.length + t.length) t t.length
      (by omega) (Nat.le_refl _)

/-- Replace skips over a region where no match can start. -/
theorem pyReplaceAux_append_of_not_hit (pat : List Char) (hpat : pat ≠ []) :
    ∀ (l1 l2 : List Char) (fuel : Nat), (l1 ++ l2).length ≤ fuel →
      (∀ i, i < l1.length → pat.isPrefixOf ((l1 ++ l2).drop i) = false) →
      pyReplaceAux pat fuel (l1 ++ l2) = l1 ++ pyReplaceAux pat fuel l2 := by
  intro l1
  induction l1 with
  | nil => intro l2 fuel hf hno; simp
  | cons c l1' ih =>
    intro l2 fuel hf hno
    cases fuel with
    | zero => simp at hf
    | succ f =>
      have h0 := hno 0 (by simp)
      rw [List.drop_zero] at h0
      rw [List.cons_append, pyReplaceAux,
        if_neg (by rw [List.cons_append] at h0; rw [h0]; exact Bool.false_ne_true)]
      have hrec : pyReplaceAux pat f (l1' ++ l2) = l1' ++ pyReplaceAux pat f l2 := by
        apply ih
        · simp at hf ⊢; omega
        · intro i hi
          have := hno (i + 1) (by simp; omega)
          simpa using this
      rw [hrec]
      have hfl : pyReplaceAux pat f l2 = pyReplaceAux pat (f + 1) l2 := by
        apply pyReplaceAux_fuel pat hpat
        · simp at hf; omega
        · simp at hf; omega
      rw [hfl]
      rfl

/-- A match at any offset shows the pattern occurs. -/
theorem containsSub_of_drop (pat l : List Char) :
    ∀ j, pat.isPrefixOf (l.drop j) = true → containsSub pat l = true := by
  induction l with
  | nil =>
    intro j h
    rw [List.drop_nil] at h
    rw [containsSub]
    exact h
  | cons c r ih =>
    intro j h
    cases j with
    | zero =>
      rw [List.drop_zero] at h
      rw [containsSub, h, Bool.true_or]
    | succ j' =>
      have h2 := ih j' (by simpa using h)
      rw [containsSub, h2, Bool.or_true]

/-- A Boolean prefix through an extended pattern is one through its head. -/
theorem isPrefixOf_of_append (a b l : List Char)
    (h : (a ++ b).isPrefixOf l = true) : a.isPrefixOf l = true :=
  List.isPrefixOf_iff_prefix.mpr
    ((List.prefix_append a b).trans (List.isPrefixOf_iff_prefix.mp h))

/-- A string with no occurrence of a pattern has none of any extension. -/
theorem containsSub_extend_false (a b l : List Char) (h : containsSub a l = false) :
    containsSub (a ++ b) l = false := by
  induction l with
  | nil =>
    rw [containsSub] at h ⊢
    by_contra hc
    rw [Bool.not_eq_false] at hc
    rw [isPrefixOf_of_append a b [] hc] at h
    exact absurd h (by decide)
  | cons c r ih =>
    rw [containsSub, Bool.or_eq_false_iff] at h
    rw [containsSub, Bool.or_eq_false_iff]
    refine ⟨?_, ih h.2⟩
    by_contra hc
    rw [Bool.not_eq_false] at hc
    rw [isPrefixOf_of_append a b (c :: r) hc] at h
    exact absurd h.1 (by decide)

/-- If the fence occurs as a prefix of `q` followed by a newline-guarded
closing fence, the match lies entirely inside `q`: the newline stops any
match from straddling the boundary. -/
theorem fence_prefix_cases (q : List Char)
    (h : fenceTok <+: (q ++ ('\n' :: fenceTok))) : fenceTok <+: q := by
  rcases h with ⟨t, ht⟩
  simp only [fenceTok, List.cons_append, List.nil_append] at ht
  cases q with
  | nil =>
    injection ht with h1 _
    exact absurd h1 (by decide)
  | cons a q1 =>
    rw [List.cons_append] at ht
    injection ht with h1 ht
    cases q1 with
    | nil =>
      rw [List.nil_append] at ht
      injection ht with h2 _
      exact absurd h2 (by decide)
    | cons b q2 =>
      rw [List.cons_append] at ht
      injection ht with h2 ht
      cases q2 with
      | nil =>
        rw [List.nil_append] at ht
        injection ht with h3 _
        exact absurd h3 (by decide)
      | cons c q3 =>
        rw [List.cons_append] at ht
        injection ht with h3 _
        subst h1
        subst h2
        subst h3
        exact ⟨q3, rfl⟩

/-- No occurrence of the fence (or of any fence-headed token) starts inside
the newline-plus-payload region of a fenced response, when the payload
itself contains no fence. -/
theorem no_hit_fence_like (restPat p : PyStr) (hp : containsSub fenceTok p = false) :
    ∀ i, i < ('\n' :: p).length →
      ((fenceTok ++ restPat).isPrefixOf
        ((('\n' :: p) ++ ('\n' :: fenceTok)).drop i)) = false := by
  intro i hi
  by_contra hcon
  rw [Bool.not_eq_false] at hcon
  have h1 : fenceTok.isPrefixOf ((('\n' :: p) ++ ('\n' :: fenceTok)).drop i) = true :=
    isPrefixOf_of_append fenceTok restPat _ hcon
  have h2 : ((('\n' :: p) ++ ('\n' :: fenceTok)).drop i) =
      ('\n' :: p).drop i ++ ('\n' :: fenceTok) := by
    rw [List.drop_append_eq_append_drop,
      Nat.sub_eq_zero_of_le (Nat.le_of_lt hi), List.drop_zero]
  rw [h2] at h1
  have h4 : fenceTok <+: ('\n' :: p).drop i :=
    fence_prefix_cases _ (List.isPrefixOf_iff_prefix.mp h1)
  have h5 : containsSub fenceTok ('\n' :: p) = true :=
    containsSub_of_drop fenceTok ('\n' :: p) i (List.isPrefixOf_iff_prefix.mpr h4)
  rw [containsSub, hp, Bool.or_false] at h5
  rcases List.isPrefixOf_iff_prefix.mp h5 with ⟨t, ht⟩
  simp only [fenceTok, List.cons_append] at ht
  injection ht with hx _
  exact absurd hx (by decide)

/-- `pyReplace` form of the no-hit region lemma. -/
theorem pyReplace_append_of_not_hit (pat : List Char) (hpat : pat ≠ []) (l1 l2 : List Char)
    (hno : ∀ i, i < l1.length → pat.isPrefixOf ((l1 ++ l2).drop i) = false) :
    pyReplace pat (l1 ++ l2) = l1 ++ pyReplace pat l2 := by
  rw [pyReplace,
    pyReplaceAux_append_of_not_hit pat hpat l1 l2 (l1 ++ l2).length (Nat.le_refl _) hno]
  congr 1
  exact pyReplaceAux_fuel pat hpat (l1 ++ l2).length l2 l2.length (by simp) (Nat.le_refl _)

/-- The clean-up of `analyze_with_ai` recovers a fenced payload exactly,
provided the payload is already stripped and contains no fence itself. -/
theorem cleanResponse_wrapFence (p : PyStr)
    (hp : containsSub fenceTok p = false) (hs : pyStrip p = p) :
    cleanResponse (wrapFence p) = p := by
  obtain ⟨hsl, hst⟩ := pyStrip_parts p hs
  have h1 : pyStrip (wrapFence p) = wrapFence p := by
    have ha : stripLead (wrapFence p) = wrapFence p := by
      rw [wrapFence, List.append_assoc]
      exact stripLead_append_eq_self fenceJsonTok _ (by decide) (by decide)
    have hb : stripTrail (wrapFence p) = wrapFence p := by
      rw [wrapFence]
      exact stripTrail_append_eq_self (fenceJsonTok ++ ('\n' :: p)) ('\n' :: fenceTok)
        (by decide) (by decide)
    rw [pyStrip, ha, hb]
  have h2 : pyReplace fenceJsonTok (wrapFence p) = ('\n' :: p) ++ ('\n' :: fenceTok) := by
    have e1 : wrapFence p = fenceJsonTok ++ (('\n' :: p) ++ ('\n' :: fenceTok)) := by
      rw [wrapFence, List.append_assoc]
    rw [e1, pyReplace_pat_prefix fenceJsonTok (by decide),
      pyReplace_append_of_not_hit fenceJsonTok (by decide) ('\n' :: p) ('\n' :: fenceTok)
        (fun i hi => no_hit_fence_like ['j', 's', 'o', 'n'] p hp i hi),
      show pyReplace fenceJsonTok ('\n' :: fenceTok) = '\n' :: fenceTok from by decide]
  have h3 : pyReplace fenceTok (('\n' :: p) ++ ('\n' :: fenceTok)) = ('\n' :: p) ++ ['\n'] := by
    rw [pyReplace_append_of_not_hit fenceTok (by decide) ('\n' :: p) ('\n' :: fenceTok)
      (fun i hi => no_hit_fence_like [] p hp i hi),
      show pyReplace fenceTok ('\n' :: fenceTok) = ['\n'] from by decide]
  have h4 : pyStrip (('\n' :: p) ++ ['\n']) = p := by
    cases p with
    | nil => decide
    | cons c p' =>
      have hlead : stripLead (('\n' :: (c :: p')) ++ ['\n']) = (c :: p') ++ ['\n'] := by
        rw [stripLead, List.cons_append, List.dropWhile_cons_of_pos (by decide)]
        exact stripLead_append_eq_self (c :: p') ['\n'] hsl (by simp)
      have hrev : ((c :: p') : PyStr).reverse.dropWhile pySpace = ((c :: p') : PyStr).reverse := by
        have := congrArg List.reverse hst
        rwa [stripTrail, List.reverse_reverse] at this
      have htrail : stripTrail ((c :: p') ++ ['\n']) = c :: p' := by
        rw [stripTrail, List.reverse_append]
        have e2 : (['\n'] : PyStr).reverse ++ ((c :: p') : PyStr).reverse =
            '\n' :: ((c :: p') : PyStr).reverse := rfl
        rw [e2, List.dropWhile_cons_of_pos (by decide), hrev, List.reverse_reverse]
      rw [pyStrip, hlead, htrail]
  rw [cleanResponse, h1, h2, h3, h4]

/-- C5 as amended: for every JSON payload that is already whitespace-stripped
and contains no triple-backtick fence, the cleaning of `analyze_with_ai`
recovers the payload from its fenced form exactly (so the parsed result of
the fenced response equals the parsed result of the bare payload), the
cleaning is lossless on the bare payload, and it is idempotent there.  The
no-fence restriction is necessary: the counterexample shows the `replace`
calls also delete backticks inside JSON string literals. -/
theorem fence_strip_round_trip (p : PyStr)
    (hp : containsSub fenceTok p = false) (hs : pyStrip p = p) :
    cleanResponse (wrapFence p) = p
  ∧ cleanResponse p = p
  ∧ jsonParse (cleanResponse (wrapFence p)) = jsonParse p
  ∧ cleanResponse (cleanResponse (wrapFence p)) = cleanResponse (wrapFence p) := by
  have h1 := cleanResponse_wrapFence p hp hs
  have h2 : cleanResponse p = p := by
    rw [cleanResponse, hs,
      pyReplace_no_occurrence fenceJsonTok p
        (containsSub_extend_false fenceTok ['j', 's', 'o', 'n'] p hp),
      pyReplace_no_occurrence fenceTok p hp, hs]
  refine ⟨h1, h2, ?_, ?_⟩
  · rw [h1]
  · rw [h1, h2]

/-- A well-formed stripped payload for the C5 witness. -/
def payloadW : PyStr := "\x7b\"alignment_score\": 5\x7d".toList

/-- Witness for the amended C5 at a concrete JSON payload. -/
theorem fence_strip_round_trip_witness :
    cleanResponse (wrapFence payloadW) = payloadW
  ∧ cleanResponse payloadW = payloadW
  ∧ jsonParse (cleanResponse (wrapFence payloadW)) = jsonParse payloadW
  ∧ cleanResponse (cleanResponse (wrapFence payloadW)) = cleanResponse (wrapFence payloadW) :=
  fence_strip_round_trip payloadW (by decide) (by decide)

/-- A JSON payload that is a string literal of three backticks. -/
def trickyPayload : PyStr := "\"\x60\x60\x60\"".toList

/-- Counterexample to C5: on a payload containing backticks inside a JSON
string, stripping the fenced response is lossy - the fenced response parses
to the empty string while the bare payload parses to the backtick string -
so the parsed results differ, refuting the for-every-payload claim. -/
theorem fence_strip_counterexample :
    jsonParse trickyPayload = some (Json.str fenceTok)
  ∧ jsonParse (cleanResponse (wrapFence trickyPayload)) = some (Json.str [])
  ∧ jsonParse (cleanResponse (wrapFence trickyPayload)) ≠ jsonParse trickyPayload := by
  refine ⟨rfl, rfl, ?_⟩
  intro h
  exact absurd (congrArg jsonText h) (by decide)
